import Mathlib

/-!
Shallow embedding of the mastercactapus/dhcpv6 wire codec (DUIDs, options,
messages) and proofs about it.

Bytes are modelled as `Nat` (values < 256 where produced by the codec).
A Go byte slice is modelled by `Win`: an underlying array together with an
offset and a length; the capacity of the slice is everything from the offset
to the end of the array, exactly as for Go slices obtained by re-slicing a
caller-supplied buffer.  Go runtime panics (index / slice bounds out of
range) are modelled by the error value `GoErr.outOfRange`.
-/

deriving instance DecidableEq for Except

set_option maxRecDepth 100000

namespace Dhcpv6

/-- The closed error taxonomy of the library (dhcpv6.go), together with
`outOfRange` standing for a Go runtime panic (index or slice bounds out of
range) and `noFuel` for exhaustion of the decoder fuel (never reached by
any execution analysed here). -/
inductive GoErr where
  | unexpectedEof
  | invalidType
  | invalidData
  | invalidIpv6Address
  | wontFit
  | duidTooLong
  | tooManyOptions
  | outOfRange
  | noFuel
deriving DecidableEq, Repr

/-- `binary.BigEndian.PutUint16` of `uint16(n)`: the two big-endian octets of
`n` modulo 2^16. -/
def be16ofNat (n : Nat) : List Nat := [n / 256 % 256, n % 256]

/-- `binary.BigEndian.PutUint32` of `uint32(n)`: the four big-endian octets of
`n` modulo 2^32. -/
def be32ofNat (n : Nat) : List Nat :=
  [n / 2 ^ 24 % 256, n / 2 ^ 16 % 256, n / 2 ^ 8 % 256, n % 256]

/-- A Go byte slice: underlying array, offset of the slice in the array and
length of the slice.  Its capacity is `arr.length - off`. -/
structure Win where
  arr : List Nat
  off : Nat
  wlen : Nat
deriving DecidableEq, Repr

namespace Win

/-- The slice covering a whole caller-supplied buffer. -/
def ofList (l : List Nat) : Win := ⟨l, 0, l.length⟩

/-- Capacity of the slice, as in Go. -/
def cap (w : Win) : Nat := w.arr.length - w.off

/-- The bytes visible through the slice. -/
def bytes (w : Win) : List Nat := (w.arr.drop w.off).take w.wlen

/-- `data[i]`: panics when `i` is not below the slice length. -/
def readByte (w : Win) (i : Nat) : Except GoErr Nat :=
  if i < w.wlen then .ok (w.arr.getD (w.off + i) 0) else .error .outOfRange

/-- `binary.BigEndian.Uint16(data[i:])` (with `data[i:]` itself for `i = 0`):
panics unless two octets are available at `i`. -/
def readU16 (w : Win) (i : Nat) : Except GoErr Nat :=
  if i + 2 ≤ w.wlen then
    .ok (w.arr.getD (w.off + i) 0 * 256 + w.arr.getD (w.off + i + 1) 0)
  else .error .outOfRange

/-- `binary.BigEndian.Uint32(data[i:])`: panics unless four octets are
available at `i`. -/
def readU32 (w : Win) (i : Nat) : Except GoErr Nat :=
  if i + 4 ≤ w.wlen then
    .ok (w.arr.getD (w.off + i) 0 * 2 ^ 24 + w.arr.getD (w.off + i + 1) 0 * 2 ^ 16 +
         w.arr.getD (w.off + i + 2) 0 * 2 ^ 8 + w.arr.getD (w.off + i + 3) 0)
  else .error .outOfRange

/-- `data[lo:hi]`: legal when `lo ≤ hi ≤ cap`, panics otherwise. -/
def sliceE (w : Win) (lo hi : Nat) : Except GoErr Win :=
  if lo ≤ hi ∧ hi ≤ w.cap then .ok ⟨w.arr, w.off + lo, hi - lo⟩
  else .error .outOfRange

/-- `data[lo:]`: legal when `lo ≤ len(data)`, panics otherwise. -/
def dropE (w : Win) (lo : Nat) : Except GoErr Win :=
  if lo ≤ w.wlen then .ok ⟨w.arr, w.off + lo, w.wlen - lo⟩
  else .error .outOfRange

end Win

/-- Big-endian 16-bit read over a plain list, used to state theorems about
whole input buffers. -/
def readBE16L (l : List Nat) (i : Nat) : Nat := l.getD i 0 * 256 + l.getD (i + 1) 0

/-- Big-endian 32-bit read over a plain list. -/
def readBE32L (l : List Nat) (i : Nat) : Nat :=
  l.getD i 0 * 2 ^ 24 + l.getD (i + 1) 0 * 2 ^ 16 + l.getD (i + 2) 0 * 2 ^ 8 + l.getD (i + 3) 0

/-! ## DUIDs (duid.go, current revision) -/

/-- DUID-LLT (link-layer address plus time). -/
structure LltDuid where
  hardwareType : Nat
  time : Nat
  llAddress : List Nat
deriving DecidableEq, Repr

/-- DUID-EN (vendor-assigned, enterprise number). -/
structure EnDuid where
  enterpriseNumber : Nat
  identifier : List Nat
deriving DecidableEq, Repr

/-- DUID-LL (link-layer address). -/
structure LlDuid where
  hardwareType : Nat
  llAddress : List Nat
deriving DecidableEq, Repr

/-- The `Duid` interface: one of the three concrete DUID shapes. -/
inductive Duid where
  | llt (d : LltDuid)
  | en (d : EnDuid)
  | ll (d : LlDuid)
deriving DecidableEq, Repr

/-- `LltDuid.MarshalBinary`: tag 1, hardware type at offset 2, time as u32 at
offset 4, link-layer address from offset 8. -/
def LltDuid.marshalBinary (d : LltDuid) : Except GoErr (List Nat) :=
  if 122 < d.llAddress.length then .error .duidTooLong
  else .ok (be16ofNat 1 ++ be16ofNat d.hardwareType ++ be32ofNat d.time ++ d.llAddress)

/-- `EnDuid.MarshalBinary`: tag 2, enterprise number as u32 at offset 2,
identifier from offset 6. -/
def EnDuid.marshalBinary (d : EnDuid) : Except GoErr (List Nat) :=
  if 124 < d.identifier.length then .error .duidTooLong
  else .ok (be16ofNat 2 ++ be32ofNat d.enterpriseNumber ++ d.identifier)

/-- `LlDuid.MarshalBinary`: tag 3, hardware type at offset 2, link-layer
address from offset 4. -/
def LlDuid.marshalBinary (d : LlDuid) : Except GoErr (List Nat) :=
  if 126 < d.llAddress.length then .error .duidTooLong
  else .ok (be16ofNat 3 ++ be16ofNat d.hardwareType ++ d.llAddress)

/-- Dispatch of `MarshalBinary` through the `Duid` interface. -/
def Duid.marshalBinary : Duid → Except GoErr (List Nat)
  | .llt d => d.marshalBinary
  | .en d => d.marshalBinary
  | .ll d => d.marshalBinary

/-- `LltDuid.UnmarshalBinary`. -/
def LltDuid.unmarshalBinary (w : Win) : Except GoErr LltDuid := do
  if w.wlen < 8 then .error .unexpectedEof
  else if 130 < w.wlen then .error .duidTooLong
  else do
    let tag ← w.readU16 0
    if tag ≠ 1 then .error .invalidType
    else do
      let hw ← w.readU16 2
      let t ← w.readU32 4
      let rest ← w.dropE 8
      .ok ⟨hw, t, rest.bytes⟩

/-- `EnDuid.UnmarshalBinary`. -/
def EnDuid.unmarshalBinary (w : Win) : Except GoErr EnDuid := do
  if w.wlen < 6 then .error .unexpectedEof
  else if 130 < w.wlen then .error .duidTooLong
  else do
    let tag ← w.readU16 0
    if tag ≠ 2 then .error .invalidType
    else do
      let en ← w.readU32 2
      let rest ← w.dropE 6
      .ok ⟨en, rest.bytes⟩

/-- `LlDuid.UnmarshalBinary`. -/
def LlDuid.unmarshalBinary (w : Win) : Except GoErr LlDuid := do
  if w.wlen < 4 then .error .unexpectedEof
  else if 130 < w.wlen then .error .duidTooLong
  else do
    let tag ← w.readU16 0
    if tag ≠ 3 then .error .invalidType
    else do
      let hw ← w.readU16 2
      let rest ← w.dropE 4
      .ok ⟨hw, rest.bytes⟩

/-- `UnmarshalBinaryDuid`: reads the two-octet type tag (panicking on inputs
shorter than two octets, as `binary.BigEndian.Uint16` does) and dispatches;
unknown tags yield `ErrInvalidType`. -/
def unmarshalBinaryDuid (w : Win) : Except GoErr Duid := do
  let dtype ← w.readU16 0
  match dtype with
  | 1 => do let d ← LltDuid.unmarshalBinary w; .ok (.llt d)
  | 2 => do let d ← EnDuid.unmarshalBinary w; .ok (.en d)
  | 3 => do let d ← LlDuid.unmarshalBinary w; .ok (.ll d)
  | _ => .error .invalidType

/-- `decode_duid` on a whole input buffer. -/
def decodeDuid (data : List Nat) : Except GoErr Duid :=
  unmarshalBinaryDuid (Win.ofList data)

example :
    (LltDuid.mk 0x42 0x36 [7, 8, 9, 5]).marshalBinary =
      .ok [0, 1, 0, 0x42, 0, 0, 0, 0x36, 7, 8, 9, 5] := by decide

example :
    decodeDuid [0, 1, 0, 0x42, 0, 0, 0, 0x36, 7, 8, 9, 5] =
      .ok (.llt ⟨0x42, 0x36, [7, 8, 9, 5]⟩) := by decide

example :
    decodeDuid (0 :: 3 :: 0 :: 0x42 :: ([104, 101, 108, 108, 111])) =
      .ok (.ll ⟨0x42, [104, 101, 108, 108, 111]⟩) := by decide

/-! ## Options and messages: data model -/

/-- `copy` into an `n`-octet zeroed region: the first `min n l.length` octets
of `l`, zero-padded to `n` (models Go fixed-size byte arrays such as
`[4]byte`, `[8]byte`, `[3]byte`). -/
def bytesFixed (n : Nat) (l : List Nat) : List Nat :=
  l.take n ++ List.replicate (n - l.length) 0

mutual
/-- The `Option` interface of options.go: one constructor per concrete option
type, plus `unknown` for undefined option codes.  `relayMsg` carries a whole
relay message, making the type mutually recursive with
`DhcpRelayMessage`. -/
inductive Opt where
  | clientId (duid : Duid)
  | serverId (duid : Duid)
  | iaNa (iaid : List Nat) (t1 t2 : Nat) (iaNaOptions : List Opt)
  | iaTa (iaid : List Nat) (iaTaOptions : List Opt)
  | iaAddr (ipv6Address : List Nat) (preferredLifetime validLifetime : Nat)
      (iAddrOptions : List Opt)
  | oro (requestedOptionCodes : List Nat)
  | preference (preferenceValue : Nat)
  | elapsedTime (elapsedTime : Nat)
  | relayMsg (m : DhcpRelayMessage)
  | auth (protocol algorithm rdm : Nat) (replayDetection : List Nat)
      (authenticationInformation : List Nat)
  | unicast (serverAddress : List Nat)
  | statusCode (sc : Nat) (statusMessage : List Nat)
  | rapidCommit
  | userClass (userClassData : List (List Nat))
  | vendorClass (vendorClassData : List (List Nat))
  | vendorOpts (enterpriseNumber : Nat) (optionData : List (Nat × List Nat))
  | interfaceId (id : List Nat)
  | reconfMsg (msgType : Nat)
  | reconfAccept
  | fqdn (flags : Nat) (domainName : List Nat)
  | nextHop (nextHopAddr : List Nat) (nextHopOptions : List Opt)
  | rtPrefix (lifetime pfxlen metric : Nat) (pfx : List Nat)
  | mtu (mtu : Nat)
  | unknown (optionCode : Nat) (optionData : List Nat)

inductive DhcpRelayMessage where
  | mk (msgType hopCount : Nat) (linkAddress peerAddress : List Nat)
      (options : List Opt)
end

/-- Client/server message (part of messages source file). -/
structure DhcpMessage where
  msgType : Nat
  transactionId : List Nat
  options : List Opt

/-! ## Marshalling (options.go / message marshalling, current revision) -/

mutual

/-- `MarshalBinary` of each concrete option type, dispatched on the variant.
Each branch is a direct translation of the corresponding Go method in
options.go (current revision). -/
def Opt.marshalBinary : Opt → Except GoErr (List Nat)
  | .clientId duid => do
      let duidData ← duid.marshalBinary
      .ok (be16ofNat 1 ++ be16ofNat duidData.length ++ duidData)
  | .serverId duid => do
      let duidData ← duid.marshalBinary
      .ok (be16ofNat 2 ++ be16ofNat duidData.length ++ duidData)
  | .iaNa iaid t1 t2 opts => do
      let body ← marshalOptionsCapped 16 65539 opts
      .ok (be16ofNat 3 ++ be16ofNat (16 + body.length - 4) ++ bytesFixed 4 iaid ++
           be32ofNat t1 ++ be32ofNat t2 ++ body)
  | .iaTa iaid opts => do
      let body ← marshalOptionsCapped 8 65539 opts
      .ok (be16ofNat 4 ++ be16ofNat (8 + body.length - 4) ++ bytesFixed 4 iaid ++ body)
  | .iaAddr addr pref valid opts =>
      if addr.length ≠ 16 then .error .invalidIpv6Address
      else do
        let body ← marshalOptionsCapped 28 63359 opts
        .ok (be16ofNat 5 ++ be16ofNat (28 + body.length - 4) ++ addr ++
             be32ofNat pref ++ be32ofNat valid ++ body)
  | .oro codes =>
      if 32767 < codes.length then .error .wontFit
      else .ok (be16ofNat 6 ++ be16ofNat (codes.length * 2) ++
                (codes.map be16ofNat).flatten)
  | .preference v => .ok (be16ofNat 7 ++ be16ofNat 1 ++ [v % 256])
  | .elapsedTime t => .ok (be16ofNat 8 ++ be16ofNat 2 ++ be16ofNat t)
  | .relayMsg m => do
      let relayData ← m.marshalBinary
      if 65535 < relayData.length then .error .wontFit
      else .ok (be16ofNat 9 ++ be16ofNat relayData.length ++ relayData)
  | .auth protocol algorithm rdm replay info =>
      if 65524 < info.length then .error .wontFit
      else .ok (be16ofNat 11 ++ be16ofNat (11 + info.length) ++
                [protocol % 256, algorithm % 256, rdm % 256] ++ bytesFixed 8 replay ++ info)
  | .unicast addr =>
      if addr.length ≠ 16 then .error .invalidIpv6Address
      else .ok (be16ofNat 12 ++ be16ofNat 16 ++ addr)
  | .statusCode sc msg =>
      if 65534 < msg.length then .error .wontFit
      else .ok (be16ofNat 13 ++ be16ofNat (msg.length + 1) ++ [sc % 256] ++ msg)
  | .rapidCommit => .ok (be16ofNat 14 ++ be16ofNat 0)
  | .userClass entries =>
      let size := entries.foldl (fun a e => a + (2 + e.length)) 0
      if 65539 < size then .error .wontFit
      else .ok (be16ofNat 15 ++ be16ofNat size ++
                (entries.map (fun e => be16ofNat e.length ++ e)).flatten)
  | .vendorClass entries =>
      let size := entries.foldl (fun a e => a + (2 + e.length)) 0
      if 65535 < size then .error .wontFit
      else .ok (be16ofNat 16 ++ be16ofNat size ++
                (entries.map (fun e => be16ofNat e.length ++ e)).flatten)
  | .vendorOpts en opts =>
      let size := opts.foldl (fun a v => a + (4 + v.2.length)) 4
      if 65535 < size then .error .wontFit
      else .ok (be16ofNat 17 ++ be16ofNat size ++ be32ofNat en ++
                (opts.map (fun v => be16ofNat v.1 ++ be16ofNat v.2.length ++ v.2)).flatten)
  | .interfaceId id =>
      if 65535 < id.length then .error .wontFit
      else .ok (be16ofNat 18 ++ be16ofNat id.length ++ id)
  | .reconfMsg t => .ok (be16ofNat 19 ++ be16ofNat 1 ++ [t % 256])
  | .reconfAccept => .ok (be16ofNat 20 ++ be16ofNat 0)
  | .fqdn flags domain =>
      .ok (be16ofNat 39 ++ be16ofNat (1 + domain.length) ++ [flags % 256] ++ domain)
  | .nextHop addr opts =>
      if addr.length ≠ 16 then .error .invalidIpv6Address
      else do
        let body ← marshalOptionsCapped 20 65539 opts
        .ok (be16ofNat 242 ++ be16ofNat (20 + body.length - 4) ++ addr ++ body)
  | .rtPrefix lifetime pfxlen metric pfx =>
      if pfx.length ≠ 16 then .error .invalidIpv6Address
      else if 128 < pfxlen then .error .invalidIpv6Address
      else .ok (be16ofNat 243 ++ be16ofNat 22 ++ be32ofNat lifetime ++
                [pfxlen % 256, metric % 256] ++ pfx)
  | .mtu v => .ok (be16ofNat 244 ++ be16ofNat 2 ++ be16ofNat v)
  | .unknown code data =>
      if 65535 < data.length then .error .wontFit
      else .ok (be16ofNat code ++ be16ofNat data.length ++ data)

/-- The container marshalling loop shared by IaNa/IaTa/IaAddr/NextHop:
marshal each nested option in order, refusing with `ErrWontFit` as soon as
the accumulated length (starting from the fixed prefix `curLen`) would
exceed the capacity `cp` of the preallocated buffer. -/
def marshalOptionsCapped (curLen cp : Nat) : List Opt → Except GoErr (List Nat)
  | [] => .ok []
  | o :: rest => do
      let d ← o.marshalBinary
      if cp < curLen + d.length then .error .wontFit
      else do
        let tail ← marshalOptionsCapped (curLen + d.length) cp rest
        .ok (d ++ tail)

/-- The message marshalling loop: options concatenated in order, with no
capacity check (Go `append` grows the buffer). -/
def marshalOptionsConcat : List Opt → Except GoErr (List Nat)
  | [] => .ok []
  | o :: rest => do
      let d ← o.marshalBinary
      let tail ← marshalOptionsConcat rest
      .ok (d ++ tail)

/-- `DhcpRelayMessage.MarshalBinary`. -/
def DhcpRelayMessage.marshalBinary : DhcpRelayMessage → Except GoErr (List Nat)
  | .mk msgType hopCount link peer opts =>
      if link.length ≠ 16 then .error .invalidIpv6Address
      else if peer.length ≠ 16 then .error .invalidIpv6Address
      else do
        let body ← marshalOptionsConcat opts
        .ok (msgType % 256 :: hopCount % 256 :: (link ++ peer ++ body))

end

/-- `DhcpMessage.MarshalBinary`: one octet of message type, three octets of
transaction id, then the options in order. -/
def DhcpMessage.marshalBinary (m : DhcpMessage) : Except GoErr (List Nat) := do
  let body ← marshalOptionsConcat m.options
  .ok (m.msgType % 256 :: (bytesFixed 3 m.transactionId ++ body))

example :
    (Opt.iaNa [0xaf, 0xaa, 0xac, 0xa3] 0 0 []).marshalBinary =
      .ok [0, 3, 0, 12, 0xaf, 0xaa, 0xac, 0xa3, 0, 0, 0, 0, 0, 0, 0, 0] := by rfl

example :
    (Opt.fqdn 1 [97]).marshalBinary = .ok [0, 39, 0, 2, 1, 97] := by rfl

/-! ## Unmarshalling: non-recursive option decoders (options.go) -/

/-- `UnknownOption.UnmarshalBinary`. -/
def UnknownOption.unmarshalBinary (w : Win) : Except GoErr Opt := do
  if w.wlen < 4 then .error .unexpectedEof
  else do
    let code ← w.readU16 0
    let olen ← w.readU16 2
    if w.wlen < olen + 4 then .error .unexpectedEof
    else do
      let body ← w.sliceE 4 (olen + 4)
      .ok (.unknown code body.bytes)

/-- `ClientIdOption.UnmarshalBinary`. -/
def ClientIdOption.unmarshalBinary (w : Win) : Except GoErr Opt := do
  if w.wlen < 4 then .error .unexpectedEof
  else do
    let code ← w.readU16 0
    if code ≠ 1 then .error .invalidType
    else do
      let olen ← w.readU16 2
      if w.wlen < olen + 4 then .error .unexpectedEof
      else do
        let dw ← w.sliceE 4 (olen + 4)
        let duid ← unmarshalBinaryDuid dw
        .ok (.clientId duid)

/-- `ServerIdOption.UnmarshalBinary`. -/
def ServerIdOption.unmarshalBinary (w : Win) : Except GoErr Opt := do
  if w.wlen < 4 then .error .unexpectedEof
  else do
    let code ← w.readU16 0
    if code ≠ 2 then .error .invalidType
    else do
      let olen ← w.readU16 2
      if w.wlen < olen + 4 then .error .unexpectedEof
      else do
        let dw ← w.sliceE 4 (olen + 4)
        let duid ← unmarshalBinaryDuid dw
        .ok (.serverId duid)

/-- `OroOption.UnmarshalBinary`. -/
def OroOption.unmarshalBinary (w : Win) : Except GoErr Opt := do
  if w.wlen < 4 then .error .unexpectedEof
  else do
    let code ← w.readU16 0
    if code ≠ 6 then .error .invalidType
    else do
      let olen ← w.readU16 2
      if w.wlen < olen + 4 then .error .unexpectedEof
      else do
        let codes ← (List.range (olen / 2)).mapM (fun i => w.readU16 (4 + i * 2))
        .ok (.oro codes)

/-- `PreferenceOption.UnmarshalBinary`. -/
def PreferenceOption.unmarshalBinary (w : Win) : Except GoErr Opt := do
  if w.wlen < 5 then .error .unexpectedEof
  else do
    let code ← w.readU16 0
    if code ≠ 7 then .error .invalidType
    else do
      let olen ← w.readU16 2
      if olen ≠ 1 then .error .invalidData
      else do
        let v ← w.readByte 4
        .ok (.preference v)

/-- `ElapsedTimeOption.UnmarshalBinary`. -/
def ElapsedTimeOption.unmarshalBinary (w : Win) : Except GoErr Opt := do
  if w.wlen < 6 then .error .unexpectedEof
  else do
    let code ← w.readU16 0
    if code ≠ 8 then .error .invalidType
    else do
      let olen ← w.readU16 2
      if olen ≠ 2 then .error .invalidData
      else do
        let t ← w.readU16 4
        .ok (.elapsedTime t)

/-- `AuthOption.UnmarshalBinary`. -/
def AuthOption.unmarshalBinary (w : Win) : Except GoErr Opt := do
  if w.wlen < 15 then .error .unexpectedEof
  else do
    let code ← w.readU16 0
    if code ≠ 11 then .error .invalidType
    else do
      let olen ← w.readU16 2
      if w.wlen < olen + 4 then .error .unexpectedEof
      else do
        let protocol ← w.readByte 4
        let algorithm ← w.readByte 5
        let rdm ← w.readByte 6
        let replay ← w.sliceE 7 15
        let info ← w.sliceE 15 (olen + 4)
        .ok (.auth protocol algorithm rdm replay.bytes info.bytes)

/-- `UnicastOption.UnmarshalBinary`. -/
def UnicastOption.unmarshalBinary (w : Win) : Except GoErr Opt := do
  if w.wlen < 20 then .error .unexpectedEof
  else do
    let code ← w.readU16 0
    if code ≠ 12 then .error .invalidType
    else do
      let olen ← w.readU16 2
      if olen ≠ 16 then .error .invalidData
      else do
        let addr ← w.sliceE 4 20
        .ok (.unicast addr.bytes)

/-- `StatusCodeOption.UnmarshalBinary`. -/
def StatusCodeOption.unmarshalBinary (w : Win) : Except GoErr Opt := do
  if w.wlen < 5 then .error .unexpectedEof
  else do
    let code ← w.readU16 0
    if code ≠ 13 then .error .invalidType
    else do
      let olen ← w.readU16 2
      if w.wlen < olen + 4 then .error .unexpectedEof
      else do
        let sc ← w.readByte 4
        let msg ← w.sliceE 5 (olen + 4)
        .ok (.statusCode sc msg.bytes)

/-- `RapidCommitOption.UnmarshalBinary`. -/
def RapidCommitOption.unmarshalBinary (w : Win) : Except GoErr Opt := do
  if w.wlen < 4 then .error .unexpectedEof
  else do
    let code ← w.readU16 0
    if code ≠ 14 then .error .invalidType
    else do
      let olen ← w.readU16 2
      if olen ≠ 0 then .error .invalidData
      else .ok .rapidCommit

/-- The entry loop of `UserClassOption.UnmarshalBinary` /
`VendorClassOption.UnmarshalBinary`: repeatedly read a u16 entry length and
that many octets, over the whole remaining window (`for len(data) > 0`).
Fuel only bounds the iteration count; the wrapper supplies enough for any
terminating execution. -/
def classDataLoopF : Nat → Win → List (List Nat) → Except GoErr (List (List Nat))
  | 0, _, _ => .error .noFuel
  | f + 1, w, acc =>
    if w.wlen = 0 then .ok acc
    else do
      let size ← w.readU16 0
      let entry ← w.sliceE 2 (size + 2)
      let rest ← w.dropE (size + 2)
      classDataLoopF f rest (acc ++ [entry.bytes])

/-- `UserClassOption.UnmarshalBinary`: after the header, the entry loop runs
over `data[4:]` — the whole remaining window, not just `olen` octets. -/
def UserClassOption.unmarshalBinary (w : Win) : Except GoErr Opt := do
  if w.wlen < 4 then .error .unexpectedEof
  else do
    let code ← w.readU16 0
    if code ≠ 15 then .error .invalidType
    else do
      let olen ← w.readU16 2
      if w.wlen < olen + 4 then .error .unexpectedEof
      else do
        let body ← w.dropE 4
        let entries ← classDataLoopF (body.wlen + 1) body []
        .ok (.userClass entries)

/-- `VendorClassOption.UnmarshalBinary` (same loop as UserClass, code 16). -/
def VendorClassOption.unmarshalBinary (w : Win) : Except GoErr Opt := do
  if w.wlen < 4 then .error .unexpectedEof
  else do
    let code ← w.readU16 0
    if code ≠ 16 then .error .invalidType
    else do
      let olen ← w.readU16 2
      if w.wlen < olen + 4 then .error .unexpectedEof
      else do
        let body ← w.dropE 4
        let entries ← classDataLoopF (body.wlen + 1) body []
        .ok (.vendorClass entries)

/-- The inner loop of `VendorOptsOption.UnmarshalBinary`, again over the whole
remaining window. -/
def vendorOptsLoopF : Nat → Win → List (Nat × List Nat) →
    Except GoErr (List (Nat × List Nat))
  | 0, _, _ => .error .noFuel
  | f + 1, w, acc =>
    if w.wlen = 0 then .ok acc
    else if w.wlen < 4 then .error .unexpectedEof
    else do
      let c ← w.readU16 0
      let optLen ← w.readU16 2
      if w.wlen < optLen + 4 then .error .unexpectedEof
      else do
        let d ← w.sliceE 4 (optLen + 4)
        let rest ← w.dropE (optLen + 4)
        vendorOptsLoopF f rest (acc ++ [(c, d.bytes)])

/-- `VendorOptsOption.UnmarshalBinary`. -/
def VendorOptsOption.unmarshalBinary (w : Win) : Except GoErr Opt := do
  if w.wlen < 8 then .error .unexpectedEof
  else do
    let code ← w.readU16 0
    if code ≠ 17 then .error .invalidType
    else do
      let olen ← w.readU16 2
      if w.wlen < olen + 4 then .error .unexpectedEof
      else do
        let en ← w.readU32 4
        let body ← w.dropE 8
        let opts ← vendorOptsLoopF (body.wlen + 1) body []
        .ok (.vendorOpts en opts)

/-- `InterfaceIdOption.UnmarshalBinary`. -/
def InterfaceIdOption.unmarshalBinary (w : Win) : Except GoErr Opt := do
  if w.wlen < 4 then .error .unexpectedEof
  else do
    let code ← w.readU16 0
    if code ≠ 18 then .error .invalidType
    else do
      let olen ← w.readU16 2
      if w.wlen < olen + 4 then .error .unexpectedEof
      else do
        let id ← w.sliceE 4 (olen + 4)
        .ok (.interfaceId id.bytes)

/-- `ReconfMsgOption.UnmarshalBinary`. -/
def ReconfMsgOption.unmarshalBinary (w : Win) : Except GoErr Opt := do
  if w.wlen < 5 then .error .unexpectedEof
  else do
    let code ← w.readU16 0
    if code ≠ 19 then .error .invalidType
    else do
      let olen ← w.readU16 2
      if olen ≠ 1 then .error .invalidData
      else do
        let t ← w.readByte 4
        .ok (.reconfMsg t)

/-- `ReconfAcceptOption.UnmarshalBinary`. -/
def ReconfAcceptOption.unmarshalBinary (w : Win) : Except GoErr Opt := do
  if w.wlen < 4 then .error .unexpectedEof
  else do
    let code ← w.readU16 0
    if code ≠ 20 then .error .invalidType
    else do
      let olen ← w.readU16 2
      if olen ≠ 0 then .error .invalidData
      else .ok .reconfAccept

/-- `FQDNOption.UnmarshalBinary`: the flags octet is commented out in the
source, so the whole value — flags octet included — lands in the domain name
and `Flags` keeps its zero value. -/
def FQDNOption.unmarshalBinary (w : Win) : Except GoErr Opt := do
  if w.wlen < 5 then .error .unexpectedEof
  else do
    let code ← w.readU16 0
    if code ≠ 39 then .error .invalidType
    else do
      let olen ← w.readU16 2
      if w.wlen < olen + 4 then .error .unexpectedEof
      else do
        let domain ← w.sliceE 4 (olen + 4)
        .ok (.fqdn 0 domain.bytes)

/-- `RtPrefixOption.UnmarshalBinary`: the prefix is `data[10:]`, every octet
of the window from offset 10 on, regardless of the declared length. -/
def RtPrefixOption.unmarshalBinary (w : Win) : Except GoErr Opt := do
  if w.wlen < 26 then .error .unexpectedEof
  else do
    let code ← w.readU16 0
    if code ≠ 243 then .error .invalidType
    else do
      let olen ← w.readU16 2
      if w.wlen < olen + 4 then .error .unexpectedEof
      else do
        let plen ← w.readByte 8
        if 128 < plen then .error .invalidIpv6Address
        else do
          let lifetime ← w.readU32 4
          let metric ← w.readByte 9
          let pfx ← w.dropE 10
          .ok (.rtPrefix lifetime plen metric pfx.bytes)

/-- `MTUOption.UnmarshalBinary`: reads the declared length only to check that
the window holds it; the value 2 is never enforced. -/
def MTUOption.unmarshalBinary (w : Win) : Except GoErr Opt := do
  if w.wlen < 6 then .error .unexpectedEof
  else do
    let code ← w.readU16 0
    if code ≠ 244 then .error .invalidType
    else do
      let olen ← w.readU16 2
      if w.wlen < olen + 4 then .error .unexpectedEof
      else do
        let v ← w.readU16 4
        .ok (.mtu v)

/-! ## Unmarshalling: dispatch, containers and messages

The recursion (container → `UnmarshalBinaryOption` → container, relay-message
option → relay message → option list) is not structural on the window, so
every function of the mutual block takes a fuel argument, decremented on each
call.  The top-level wrappers supply `input length + 1` fuel, which is ample:
every nested call strictly advances the window offset by at least four
octets.  `GoErr.noFuel` is returned only on exhaustion and is never reached
in any execution analysed in this file. -/

mutual

/-- `UnmarshalBinaryOption`: reads the two leading octets as the option code
(panicking on windows shorter than two octets, as `binary.BigEndian.Uint16`
does) and dispatches to the concrete decoder; unrecognised codes fall back to
`UnknownOption`. -/
def unmarshalBinaryOptionF : Nat → Win → Except GoErr Opt
  | 0, _ => .error .noFuel
  | f + 1, w => do
    let code ← w.readU16 0
    match code with
    | 1 => ClientIdOption.unmarshalBinary w
    | 2 => ServerIdOption.unmarshalBinary w
    | 3 => IaNaOption.unmarshalBinaryF f w
    | 4 => IaTaOption.unmarshalBinaryF f w
    | 5 => IaAddrOption.unmarshalBinaryF f w
    | 6 => OroOption.unmarshalBinary w
    | 7 => PreferenceOption.unmarshalBinary w
    | 8 => ElapsedTimeOption.unmarshalBinary w
    | 9 => RelayMsgOption.unmarshalBinaryF f w
    | 11 => AuthOption.unmarshalBinary w
    | 12 => UnicastOption.unmarshalBinary w
    | 13 => StatusCodeOption.unmarshalBinary w
    | 14 => RapidCommitOption.unmarshalBinary w
    | 15 => UserClassOption.unmarshalBinary w
    | 16 => VendorClassOption.unmarshalBinary w
    | 17 => VendorOptsOption.unmarshalBinary w
    | 18 => InterfaceIdOption.unmarshalBinary w
    | 19 => ReconfMsgOption.unmarshalBinary w
    | 20 => ReconfAcceptOption.unmarshalBinary w
    | 39 => FQDNOption.unmarshalBinary w
    | 242 => NextHopOption.unmarshalBinaryF f w
    | 243 => RtPrefixOption.unmarshalBinary w
    | 244 => MTUOption.unmarshalBinary w
    | _ => UnknownOption.unmarshalBinary w

/-- The nested-option loop shared by the container decoders (IaNa, IaTa,
IaAddr, NextHop): read the inner declared length, slice
`optionData[:nextSize+4]` (which in Go may extend past the window length up
to its capacity, or panic), decode it, then advance by
`optionData[nextSize+4:]` (which panics when `nextSize+4` exceeds the window
length). -/
def nestedOptionsLoopF : Nat → Win → List Opt → Except GoErr (List Opt)
  | 0, _, _ => .error .noFuel
  | f + 1, w, acc =>
    if w.wlen = 0 then .ok acc
    else if w.wlen < 4 then .error .unexpectedEof
    else do
      let nextSize ← w.readU16 2
      let sub ← w.sliceE 0 (nextSize + 4)
      let o ← unmarshalBinaryOptionF f sub
      let rest ← w.dropE (nextSize + 4)
      nestedOptionsLoopF f rest (acc ++ [o])

/-- The option loop of `DhcpMessage.UnmarshalBinary` /
`DhcpRelayMessage.UnmarshalBinary`: each option is decoded from the whole
remaining window (no slicing to the declared size), then the cursor advances
by `optSize+4`. -/
def messageOptionsLoopF : Nat → Win → List Opt → Except GoErr (List Opt)
  | 0, _, _ => .error .noFuel
  | f + 1, w, acc =>
    if w.wlen = 0 then .ok acc
    else if w.wlen < 4 then .error .unexpectedEof
    else do
      let optSize ← w.readU16 2
      let o ← unmarshalBinaryOptionF f w
      let rest ← w.dropE (optSize + 4)
      messageOptionsLoopF f rest (acc ++ [o])

/-- `IaNaOption.UnmarshalBinary`. -/
def IaNaOption.unmarshalBinaryF : Nat → Win → Except GoErr Opt
  | 0, _ => .error .noFuel
  | f + 1, w => do
  if w.wlen < 16 then .error .unexpectedEof
  else do
    let code ← w.readU16 0
    if code ≠ 3 then .error .invalidType
    else do
      let olen ← w.readU16 2
      if w.wlen < olen + 4 then .error .unexpectedEof
      else do
        let iaid ← w.sliceE 4 8
        let t1 ← w.readU32 8
        let t2 ← w.readU32 12
        let optionData ← w.sliceE 16 (olen + 4)
        let opts ← nestedOptionsLoopF f optionData []
        .ok (.iaNa iaid.bytes t1 t2 opts)

/-- `IaTaOption.UnmarshalBinary`. -/
def IaTaOption.unmarshalBinaryF : Nat → Win → Except GoErr Opt
  | 0, _ => .error .noFuel
  | f + 1, w => do
  if w.wlen < 8 then .error .unexpectedEof
  else do
    let code ← w.readU16 0
    if code ≠ 4 then .error .invalidType
    else do
      let olen ← w.readU16 2
      if w.wlen < olen + 4 then .error .unexpectedEof
      else do
        let iaid ← w.sliceE 4 8
        let optionData ← w.sliceE 8 (olen + 4)
        let opts ← nestedOptionsLoopF f optionData []
        .ok (.iaTa iaid.bytes opts)

/-- `IaAddrOption.UnmarshalBinary`. -/
def IaAddrOption.unmarshalBinaryF : Nat → Win → Except GoErr Opt
  | 0, _ => .error .noFuel
  | f + 1, w => do
  if w.wlen < 28 then .error .unexpectedEof
  else do
    let code ← w.readU16 0
    if code ≠ 5 then .error .invalidType
    else do
      let olen ← w.readU16 2
      if w.wlen < olen + 4 then .error .unexpectedEof
      else do
        let addr ← w.sliceE 4 20
        let pref ← w.readU32 20
        let valid ← w.readU32 24
        let optionData ← w.sliceE 28 (olen + 4)
        let opts ← nestedOptionsLoopF f optionData []
        .ok (.iaAddr addr.bytes pref valid opts)

/-- `NextHopOption.UnmarshalBinary`. -/
def NextHopOption.unmarshalBinaryF : Nat → Win → Except GoErr Opt
  | 0, _ => .error .noFuel
  | f + 1, w => do
  if w.wlen < 20 then .error .unexpectedEof
  else do
    let code ← w.readU16 0
    if code ≠ 242 then .error .invalidType
    else do
      let olen ← w.readU16 2
      if w.wlen < olen + 4 then .error .unexpectedEof
      else do
        let addr ← w.sliceE 4 20
        let optionData ← w.sliceE 20 (olen + 4)
        let opts ← nestedOptionsLoopF f optionData []
        .ok (.nextHop addr.bytes opts)

/-- `RelayMsgOption.UnmarshalBinary`: the value window holds a whole relay
message. -/
def RelayMsgOption.unmarshalBinaryF : Nat → Win → Except GoErr Opt
  | 0, _ => .error .noFuel
  | f + 1, w => do
  if w.wlen < 4 then .error .unexpectedEof
  else do
    let code ← w.readU16 0
    if code ≠ 9 then .error .invalidType
    else do
      let olen ← w.readU16 2
      if w.wlen < olen + 4 then .error .unexpectedEof
      else do
        let sub ← w.sliceE 4 (olen + 4)
        let m ← DhcpRelayMessage.unmarshalBinaryF f sub
        .ok (.relayMsg m)

/-- `DhcpRelayMessage.UnmarshalBinary`. -/
def DhcpRelayMessage.unmarshalBinaryF : Nat → Win → Except GoErr DhcpRelayMessage
  | 0, _ => .error .noFuel
  | f + 1, w => do
  if w.wlen < 34 then .error .unexpectedEof
  else do
    let msgType ← w.readByte 0
    let hop ← w.readByte 1
    let link ← w.sliceE 2 18
    let peer ← w.sliceE 18 34
    let rest ← w.dropE 34
    let opts ← messageOptionsLoopF f rest []
    .ok (.mk msgType hop link.bytes peer.bytes opts)

end

/-- `decode_option` on a whole caller-supplied buffer (`UnmarshalBinaryOption`
applied to `data`). -/
def unmarshalBinaryOption (data : List Nat) : Except GoErr Opt :=
  unmarshalBinaryOptionF (data.length + 1) (Win.ofList data)

/-- `DhcpMessage.UnmarshalBinary` on a whole caller-supplied buffer. -/
def DhcpMessage.unmarshalBinary (data : List Nat) : Except GoErr DhcpMessage := do
  let w := Win.ofList data
  if w.wlen < 4 then .error .unexpectedEof
  else do
    let msgType ← w.readByte 0
    let xid ← w.sliceE 1 4
    let rest ← w.dropE 4
    let opts ← messageOptionsLoopF (data.length + 1) rest []
    .ok ⟨msgType, xid.bytes, opts⟩

example : unmarshalBinaryOption [0, 14, 0, 0] = .ok .rapidCommit := by rfl

example :
    unmarshalBinaryOption [0xab, 0xcd, 0, 3, 1, 2, 3] =
      .ok (.unknown 0xabcd [1, 2, 3]) := by rfl

example : unmarshalBinaryOption [0, 7, 0, 2, 0, 0] = .error .invalidData := by rfl

example :
    unmarshalBinaryOption [0, 3, 0, 16, 9, 9, 9, 9, 0, 0, 0, 1, 0, 0, 0, 2, 0, 14, 0, 0] =
      .ok (.iaNa [9, 9, 9, 9] 1 2 [.rapidCommit]) := by rfl

/-! ## Generic evaluation lemmas -/

/-- Binding a successful `Except` computation applies the continuation. -/
@[simp] theorem ok_bind {α β : Type} (v : α) (g : α → Except GoErr β) :
    (Except.ok v >>= g) = g v := rfl

/-- Binding a failed `Except` computation propagates the error. -/
@[simp] theorem error_bind {α β : Type} (e : GoErr) (g : α → Except GoErr β) :
    ((Except.error e : Except GoErr α) >>= g) = .error e := rfl

/-! ## Claim theorems -/

/-- C3: the LLT DUID encoder writes the 32-bit big-endian time at offset 4 and
the link-layer address from offset 8, the decoder reads an LLT input at the
same offsets, and the concrete 12-octet test vector encodes accordingly. -/
theorem llt_duid_time_offset4_address_offset8
    (hw t : Nat) (ll : List Nat) (hll : ll.length ≤ 122)
    (data : List Nat) (h8 : 8 ≤ data.length) (h130 : data.length ≤ 130)
    (htag : readBE16L data 0 = 1) :
    (LltDuid.mk hw t ll).marshalBinary =
      .ok (be16ofNat 1 ++ be16ofNat hw ++ be32ofNat t ++ ll) ∧
    ((be16ofNat 1 ++ be16ofNat hw ++ be32ofNat t ++ ll).drop 4).take 4 = be32ofNat t ∧
    (be16ofNat 1 ++ be16ofNat hw ++ be32ofNat t ++ ll).drop 8 = ll ∧
    decodeDuid data =
      .ok (.llt ⟨readBE16L data 2, readBE32L data 4, data.drop 8⟩) ∧
    (LltDuid.mk 0x42 0x36 [0x07, 0x08, 0x09, 0x05]).marshalBinary =
      .ok [0x00, 0x01, 0x00, 0x42, 0x00, 0x00, 0x00, 0x36, 0x07, 0x08, 0x09, 0x05] := by
  refine ⟨?_, ?_, ?_, ?_, by decide⟩
  · simp [LltDuid.marshalBinary, Nat.not_lt.mpr hll]
  · simp [be16ofNat, be32ofNat]
  · simp [be16ofNat, be32ofNat]
  · have h1 : ¬ (data.length < 8) := by omega
    have h2 : ¬ (130 < data.length) := by omega
    have h3 : 0 + 2 ≤ data.length := by omega
    have h4 : 2 + 2 ≤ data.length := by omega
    have h5 : 4 + 4 ≤ data.length := by omega
    have htag' : data[0]?.getD 0 * 256 + data[1]?.getD 0 = 1 := by
      simpa [readBE16L, List.getD] using htag
    simp [decodeDuid, unmarshalBinaryDuid, LltDuid.unmarshalBinary, Win.ofList,
      Win.readU16, Win.readU32, Win.dropE, Win.bytes, h1, h2, h3, h4, h5, h8, htag',
      readBE16L, readBE32L, List.take_of_length_le]

/-- C3 witness: the theorem applied to the concrete test vector. -/
theorem llt_duid_time_offset4_address_offset8_witness :
    decodeDuid [0, 1, 0, 0x42, 0, 0, 0, 0x36, 7, 8, 9, 5] =
      .ok (.llt ⟨0x42, 0x36, [7, 8, 9, 5]⟩) := by
  have h := llt_duid_time_offset4_address_offset8 0x42 0x36 [7, 8, 9, 5] (by decide)
    [0, 1, 0, 0x42, 0, 0, 0, 0x36, 7, 8, 9, 5] (by decide) (by decide) (by decide)
  exact h.2.2.2.1.trans (by decide)

/-- C6: the DUID encoders fail with `DuidTooLong` exactly when the variant
body exceeds its ceiling (LLT 122, EN 124, LL 126 octets), and decoding any
input longer than 130 octets whose tag is 1, 2 or 3 fails with
`DuidTooLong`. -/
theorem duid_too_long_ceilings
    (dLlt : LltDuid) (dEn : EnDuid) (dLl : LlDuid) (data : List Nat)
    (hlen : 130 < data.length)
    (htag : readBE16L data 0 = 1 ∨ readBE16L data 0 = 2 ∨ readBE16L data 0 = 3) :
    (dLlt.marshalBinary = .error .duidTooLong ↔ 122 < dLlt.llAddress.length) ∧
    (dLlt.llAddress.length ≤ 122 →
      dLlt.marshalBinary = .ok (be16ofNat 1 ++ be16ofNat dLlt.hardwareType ++
        be32ofNat dLlt.time ++ dLlt.llAddress)) ∧
    (dEn.marshalBinary = .error .duidTooLong ↔ 124 < dEn.identifier.length) ∧
    (dEn.identifier.length ≤ 124 →
      dEn.marshalBinary = .ok (be16ofNat 2 ++ be32ofNat dEn.enterpriseNumber ++
        dEn.identifier)) ∧
    (dLl.marshalBinary = .error .duidTooLong ↔ 126 < dLl.llAddress.length) ∧
    (dLl.llAddress.length ≤ 126 →
      dLl.marshalBinary = .ok (be16ofNat 3 ++ be16ofNat dLl.hardwareType ++
        dLl.llAddress)) ∧
    decodeDuid data = .error .duidTooLong := by
  have h2 : 0 + 2 ≤ data.length := by omega
  refine ⟨?_, ?_, ?_, ?_, ?_, ?_, ?_⟩
  · unfold LltDuid.marshalBinary; split <;> simp_all
  · intro hle; unfold LltDuid.marshalBinary; rw [if_neg (by omega)]
  · unfold EnDuid.marshalBinary; split <;> simp_all
  · intro hle; unfold EnDuid.marshalBinary; rw [if_neg (by omega)]
  · unfold LlDuid.marshalBinary; split <;> simp_all
  · intro hle; unfold LlDuid.marshalBinary; rw [if_neg (by omega)]
  · rcases htag with h | h | h
    · have htag' : data[0]?.getD 0 * 256 + data[1]?.getD 0 = 1 := by
        simpa [readBE16L, List.getD] using h
      simp [decodeDuid, unmarshalBinaryDuid, LltDuid.unmarshalBinary, Win.ofList,
        Win.readU16, htag', h2, show ¬ (data.length < 8) by omega, hlen]
    · have htag' : data[0]?.getD 0 * 256 + data[1]?.getD 0 = 2 := by
        simpa [readBE16L, List.getD] using h
      simp [decodeDuid, unmarshalBinaryDuid, EnDuid.unmarshalBinary, Win.ofList,
        Win.readU16, htag', h2, show ¬ (data.length < 6) by omega, hlen]
    · have htag' : data[0]?.getD 0 * 256 + data[1]?.getD 0 = 3 := by
        simpa [readBE16L, List.getD] using h
      simp [decodeDuid, unmarshalBinaryDuid, LlDuid.unmarshalBinary, Win.ofList,
        Win.readU16, htag', h2, show ¬ (data.length < 4) by omega, hlen]

/-- C6 witness: a 123-octet LLT address is refused, a 1-octet one accepted,
and a 131-octet input with tag 1 is refused while decoding. -/
theorem duid_too_long_ceilings_witness :
    (LltDuid.mk 0 0 (List.replicate 123 7)).marshalBinary = .error .duidTooLong ∧
    (LltDuid.mk 0 0 [7]).marshalBinary =
      .ok (be16ofNat 1 ++ be16ofNat 0 ++ be32ofNat 0 ++ [7]) ∧
    decodeDuid (0 :: 1 :: List.replicate 129 7) = .error .duidTooLong := by
  have h := duid_too_long_ceilings ⟨0, 0, List.replicate 123 7⟩ ⟨0, []⟩ ⟨0, []⟩
    (0 :: 1 :: List.replicate 129 7) (by decide) (Or.inl (by decide))
  have h' := duid_too_long_ceilings ⟨0, 0, [7]⟩ ⟨0, []⟩ ⟨0, []⟩
    (0 :: 1 :: List.replicate 129 7) (by decide) (Or.inl (by decide))
  exact ⟨h.1.mpr (by simp), h'.2.1 (by simp), h.2.2.2.2.2.2⟩

/-- C1 (code bug): the round trip fails on FQDN options.  Encoding
`FQDNOption{Flags: 1, DomainName: "a"}` and decoding the result yields
`FQDNOption{Flags: 0, DomainName: "\x01a"}`: the decoder's flags read is
commented out, so the flags octet lands in the domain name. -/
theorem fqdn_roundtrip_loses_flags :
    (Opt.fqdn 1 [97]).marshalBinary = .ok [0, 39, 0, 2, 1, 97] ∧
    unmarshalBinaryOption [0, 39, 0, 2, 1, 97] = .ok (.fqdn 0 [1, 97]) ∧
    Opt.fqdn 0 [1, 97] ≠ Opt.fqdn 1 [97] := by
  refine ⟨rfl, rfl, ?_⟩
  simp

/-- C4 (code bug): `UnmarshalBinaryOption` reads the 16-bit option code before
any length check, so inputs of zero or one octet panic (index out of range)
instead of returning `UnexpectedEof`; two- and three-octet inputs do reach
the per-option length checks and return `UnexpectedEof`. -/
theorem decode_option_short_input :
    unmarshalBinaryOption [] = .error .outOfRange ∧
    unmarshalBinaryOption [0] = .error .outOfRange ∧
    unmarshalBinaryOption [0, 7] = .error .unexpectedEof ∧
    unmarshalBinaryOption [0, 7, 0] = .error .unexpectedEof :=
  ⟨rfl, rfl, rfl, rfl⟩

/-- C5 (code bug): decoding an IaNa container whose nested region declares an
inner option of total size `4 + 8 = 12` octets while only 4 remain in the
window does not return an error: the nested loop slices
`optionData[:nextSize+4]` unchecked, which on a standalone buffer is a
slice-bounds panic. -/
theorem iana_inner_length_overrun_panics :
    unmarshalBinaryOption
      [0, 3, 0, 16, 0, 0, 0, 0, 0, 0, 0, 0, 0, 0, 0, 0, 0, 14, 0, 8] =
      .error .outOfRange := rfl

/-- C2 (code bug): a message holding a UserClass option followed by any
further option does not decode back to its own option list: the UserClass
entry loop runs over the whole remaining buffer, mis-reads the next option's
header as an entry length and panics slicing past the buffer. -/
theorem userclass_mid_message_breaks_decode :
    DhcpMessage.marshalBinary ⟨1, [0, 0, 0], [.userClass [], .rapidCommit]⟩ =
      .ok [1, 0, 0, 0, 0, 15, 0, 0, 0, 14, 0, 0] ∧
    DhcpMessage.unmarshalBinary [1, 0, 0, 0, 0, 15, 0, 0, 0, 14, 0, 0] =
      .error .outOfRange :=
  ⟨rfl, rfl⟩

/-- C9: the Solicit example message encodes to exactly the documented 58-octet
string and that string decodes back to an equal structure. -/
theorem solicit_example_roundtrip :
    DhcpMessage.marshalBinary
      ⟨1, [0xa0, 0xa7, 0xa2],
        [.rapidCommit,
         .iaNa [0xaf, 0xaa, 0xac, 0xa3] 0 0 [],
         .oro [23, 24, 56],
         .clientId (.en ⟨43793, [0xac, 0xa2, 0xa8, 0xaf, 0xae, 0xa3, 0xa3, 0xaf]⟩),
         .elapsedTime 0]⟩ =
      .ok [0x01, 0xa0, 0xa7, 0xa2,
           0x00, 0x0e, 0x00, 0x00,
           0x00, 0x03, 0x00, 0x0c, 0xaf, 0xaa, 0xac, 0xa3,
           0x00, 0x00, 0x00, 0x00, 0x00, 0x00, 0x00, 0x00,
           0x00, 0x06, 0x00, 0x06, 0x00, 0x17, 0x00, 0x18, 0x00, 0x38,
           0x00, 0x01, 0x00, 0x0e, 0x00, 0x02, 0x00, 0x00, 0xab, 0x11,
           0xac, 0xa2, 0xa8, 0xaf, 0xae, 0xa3, 0xa3, 0xaf,
           0x00, 0x08, 0x00, 0x02, 0x00, 0x00] ∧
    DhcpMessage.unmarshalBinary
      [0x01, 0xa0, 0xa7, 0xa2,
       0x00, 0x0e, 0x00, 0x00,
       0x00, 0x03, 0x00, 0x0c, 0xaf, 0xaa, 0xac, 0xa3,
       0x00, 0x00, 0x00, 0x00, 0x00, 0x00, 0x00, 0x00,
       0x00, 0x06, 0x00, 0x06, 0x00, 0x17, 0x00, 0x18, 0x00, 0x38,
       0x00, 0x01, 0x00, 0x0e, 0x00, 0x02, 0x00, 0x00, 0xab, 0x11,
       0xac, 0xa2, 0xa8, 0xaf, 0xae, 0xa3, 0xa3, 0xaf,
       0x00, 0x08, 0x00, 0x02, 0x00, 0x00] =
      .ok ⟨1, [0xa0, 0xa7, 0xa2],
        [.rapidCommit,
         .iaNa [0xaf, 0xaa, 0xac, 0xa3] 0 0 [],
         .oro [23, 24, 56],
         .clientId (.en ⟨43793, [0xac, 0xa2, 0xa8, 0xaf, 0xae, 0xa3, 0xa3, 0xaf]⟩),
         .elapsedTime 0]⟩ :=
  ⟨rfl, rfl⟩

/-- Marshalling a UserClass option holding a single entry, in closed form. -/
theorem userClass_single_marshal (e : List Nat) :
    (Opt.userClass [e]).marshalBinary =
      if 65539 < 2 + e.length then .error .wontFit
      else .ok (be16ofNat 15 ++ be16ofNat (2 + e.length) ++ (be16ofNat e.length ++ e)) := by
  unfold Opt.marshalBinary
  simp

/-- C8 (code bug): the UserClass encoder caps the body at 65539 octets, not
65535: a total entry size of 65536 is not refused — it is emitted with the
u16 length field truncated to 0 — while 65540 is the first size refused with
`WontFit`. -/
theorem userclass_cap_65539_not_65535 :
    (Opt.userClass [List.replicate 65534 0]).marshalBinary =
      .ok ([0, 15, 0, 0, 255, 254] ++ List.replicate 65534 0) ∧
    (Opt.userClass [List.replicate 65538 0]).marshalBinary = .error .wontFit := by
  constructor
  · rw [userClass_single_marshal, List.length_replicate, if_neg (by norm_num)]
    norm_num [be16ofNat]
  · rw [userClass_single_marshal, List.length_replicate, if_pos (by norm_num)]

/-- C7 counterexample: an MTU header with length field 0 and a readable body
decodes successfully (the MTU decoder never validates its length), and a
Preference header with length field 0 on a 4-octet input — enough for the
declared body — yields `UnexpectedEof`; the claim demands `InvalidData` for
both. -/
theorem fixed_length_invaliddata_counterexample :
    unmarshalBinaryOption [0, 244, 0, 0, 0x12, 0x34] = .ok (.mtu 0x1234) ∧
    unmarshalBinaryOption [0, 7, 0, 0] = .error .unexpectedEof :=
  ⟨rfl, rfl⟩

/-- C7 amended: for the six validated fixed-length options (Preference 1,
ElapsedTime 2, Unicast 16, RapidCommit 0, ReconfMsg 1, ReconfAccept 0),
any input of at least `4 + expected` octets whose length field differs from
the expected constant fails with `InvalidData`; the MTU decoder instead
ignores its length field and succeeds whenever the declared body fits. -/
theorem fixed_length_wrong_length_invaliddata (data : List Nat) :
    (4 + 1 ≤ data.length → readBE16L data 0 = 7 → readBE16L data 2 ≠ 1 →
      unmarshalBinaryOption data = .error .invalidData) ∧
    (4 + 2 ≤ data.length → readBE16L data 0 = 8 → readBE16L data 2 ≠ 2 →
      unmarshalBinaryOption data = .error .invalidData) ∧
    (4 + 16 ≤ data.length → readBE16L data 0 = 12 → readBE16L data 2 ≠ 16 →
      unmarshalBinaryOption data = .error .invalidData) ∧
    (4 + 0 ≤ data.length → readBE16L data 0 = 14 → readBE16L data 2 ≠ 0 →
      unmarshalBinaryOption data = .error .invalidData) ∧
    (4 + 1 ≤ data.length → readBE16L data 0 = 19 → readBE16L data 2 ≠ 1 →
      unmarshalBinaryOption data = .error .invalidData) ∧
    (4 + 0 ≤ data.length → readBE16L data 0 = 20 → readBE16L data 2 ≠ 0 →
      unmarshalBinaryOption data = .error .invalidData) ∧
    (6 ≤ data.length → readBE16L data 0 = 244 → readBE16L data 2 + 4 ≤ data.length →
      unmarshalBinaryOption data = .ok (.mtu (readBE16L data 4))) := by
  refine ⟨?_, ?_, ?_, ?_, ?_, ?_, ?_⟩ <;> intro hlen hcode hne
  case refine_1 =>
    have hcode' : data[0]?.getD 0 * 256 + data[1]?.getD 0 = 7 := by
      simpa [readBE16L, List.getD] using hcode
    have hne' : ¬ (data[2]?.getD 0 * 256 + data[3]?.getD 0 = 1) := by
      simpa [readBE16L, List.getD] using hne
    simp [unmarshalBinaryOption, unmarshalBinaryOptionF,
      PreferenceOption.unmarshalBinary, Win.ofList, Win.readU16, hcode', hne',
      show 0 + 2 ≤ data.length by omega, show 2 + 2 ≤ data.length by omega,
      show ¬ (data.length < 5) by omega]
  case refine_2 =>
    have hcode' : data[0]?.getD 0 * 256 + data[1]?.getD 0 = 8 := by
      simpa [readBE16L, List.getD] using hcode
    have hne' : ¬ (data[2]?.getD 0 * 256 + data[3]?.getD 0 = 2) := by
      simpa [readBE16L, List.getD] using hne
    simp [unmarshalBinaryOption, unmarshalBinaryOptionF,
      ElapsedTimeOption.unmarshalBinary, Win.ofList, Win.readU16, hcode', hne',
      show 0 + 2 ≤ data.length by omega, show 2 + 2 ≤ data.length by omega,
      show ¬ (data.length < 6) by omega]
  case refine_3 =>
    have hcode' : data[0]?.getD 0 * 256 + data[1]?.getD 0 = 12 := by
      simpa [readBE16L, List.getD] using hcode
    have hne' : ¬ (data[2]?.getD 0 * 256 + data[3]?.getD 0 = 16) := by
      simpa [readBE16L, List.getD] using hne
    simp [unmarshalBinaryOption, unmarshalBinaryOptionF,
      UnicastOption.unmarshalBinary, Win.ofList, Win.readU16, hcode', hne',
      show 0 + 2 ≤ data.length by omega, show 2 + 2 ≤ data.length by omega,
      show ¬ (data.length < 20) by omega]
  case refine_4 =>
    have hcode' : data[0]?.getD 0 * 256 + data[1]?.getD 0 = 14 := by
      simpa [readBE16L, List.getD] using hcode
    have hne' : ¬ (data[2]?.getD 0 * 256 + data[3]?.getD 0 = 0) := by
      simpa [readBE16L, List.getD] using hne
    simp [unmarshalBinaryOption, unmarshalBinaryOptionF,
      RapidCommitOption.unmarshalBinary, Win.ofList, Win.readU16, hcode', hne',
      show 0 + 2 ≤ data.length by omega, show 2 + 2 ≤ data.length by omega,
      show ¬ (data.length < 4) by omega]
  case refine_5 =>
    have hcode' : data[0]?.getD 0 * 256 + data[1]?.getD 0 = 19 := by
      simpa [readBE16L, List.getD] using hcode
    have hne' : ¬ (data[2]?.getD 0 * 256 + data[3]?.getD 0 = 1) := by
      simpa [readBE16L, List.getD] using hne
    simp [unmarshalBinaryOption, unmarshalBinaryOptionF,
      ReconfMsgOption.unmarshalBinary, Win.ofList, Win.readU16, hcode', hne',
      show 0 + 2 ≤ data.length by omega, show 2 + 2 ≤ data.length by omega,
      show ¬ (data.length < 5) by omega]
  case refine_6 =>
    have hcode' : data[0]?.getD 0 * 256 + data[1]?.getD 0 = 20 := by
      simpa [readBE16L, List.getD] using hcode
    have hne' : ¬ (data[2]?.getD 0 * 256 + data[3]?.getD 0 = 0) := by
      simpa [readBE16L, List.getD] using hne
    simp [unmarshalBinaryOption, unmarshalBinaryOptionF,
      ReconfAcceptOption.unmarshalBinary, Win.ofList, Win.readU16, hcode', hne',
      show 0 + 2 ≤ data.length by omega, show 2 + 2 ≤ data.length by omega,
      show ¬ (data.length < 4) by omega]
  case refine_7 =>
    have hcode' : data[0]?.getD 0 * 256 + data[1]?.getD 0 = 244 := by
      simpa [readBE16L, List.getD] using hcode
    have hfits : data[2]?.getD 0 * 256 + data[3]?.getD 0 + 4 ≤ data.length := by
      simpa [readBE16L, List.getD] using hne
    simp [unmarshalBinaryOption, unmarshalBinaryOptionF, MTUOption.unmarshalBinary,
      Win.ofList, Win.readU16, readBE16L, List.getD, hcode',
      show 0 + 2 ≤ data.length by omega, show 2 + 2 ≤ data.length by omega,
      show 4 + 2 ≤ data.length by omega, show ¬ (data.length < 6) by omega,
      show ¬ (data.length < data[2]?.getD 0 * 256 + data[3]?.getD 0 + 4) by omega]

/-- C7 witness: the amended theorem applied to a Preference header with
length field 2 (the claim's own example) and to the MTU input. -/
theorem fixed_length_wrong_length_invaliddata_witness :
    unmarshalBinaryOption [0, 7, 0, 2, 0, 0] = .error .invalidData ∧
    unmarshalBinaryOption [0, 244, 0, 0, 0x12, 0x34] = .ok (.mtu 0x1234) := by
  have h := fixed_length_wrong_length_invaliddata [0, 7, 0, 2, 0, 0]
  have h2 := fixed_length_wrong_length_invaliddata [0, 244, 0, 0, 0x12, 0x34]
  exact ⟨h.1 (by decide) (by decide) (by decide),
    (h2.2.2.2.2.2.2 (by decide) (by decide) (by decide)).trans rfl⟩

/-- C10: any RtPrefix input the decoder accepts whose total length exceeds 26
octets (declared length above 22 but within the buffer) is decoded with
`Prefix` equal to every byte of the buffer from offset 10 to its end — more
than the 16 octets of an IPv6 address, neither truncated nor rejected. -/
theorem rtprefix_prefix_not_truncated
    (data : List Nat) (hlen : 26 < data.length)
    (hcode : readBE16L data 0 = 243)
    (holen : 22 < readBE16L data 2)
    (hfits : readBE16L data 2 + 4 ≤ data.length)
    (hplen : data.getD 8 0 ≤ 128) :
    unmarshalBinaryOption data =
      .ok (.rtPrefix (readBE32L data 4) (data.getD 8 0) (data.getD 9 0) (data.drop 10)) ∧
    16 < (data.drop 10).length := by
  constructor
  · have hcode' : data[0]?.getD 0 * 256 + data[1]?.getD 0 = 243 := by
      simpa [readBE16L, List.getD] using hcode
    have hfits' : data[2]?.getD 0 * 256 + data[3]?.getD 0 + 4 ≤ data.length := by
      simpa [readBE16L, List.getD] using hfits
    have hplen' : data[8]?.getD 0 ≤ 128 := by
      simpa [List.getD] using hplen
    have h8lt : (8 : Nat) < data.length := by omega
    have hplen2 : data[8] ≤ 128 := by
      simpa [List.getElem?_eq_getElem h8lt] using hplen'
    simp [unmarshalBinaryOption, unmarshalBinaryOptionF, hplen2,
      RtPrefixOption.unmarshalBinary, Win.ofList, Win.readU16, Win.readU32,
      Win.readByte, Win.dropE, Win.bytes, readBE32L, List.getD, hcode',
      show 0 + 2 ≤ data.length by omega, show 2 + 2 ≤ data.length by omega,
      show 4 + 4 ≤ data.length by omega, show 8 < data.length by omega,
      show 9 < data.length by omega, show 10 ≤ data.length by omega,
      show ¬ (data.length < 26) by omega,
      show ¬ (data.length < data[2]?.getD 0 * 256 + data[3]?.getD 0 + 4) by omega,
      show ¬ (128 < data[8]?.getD 0) by omega,
      List.take_of_length_le]
  · simp only [List.length_drop]
    omega

/-- C10 witness: a 27-octet RtPrefix input with declared length 23 decodes to
a 17-octet prefix. -/
theorem rtprefix_prefix_not_truncated_witness :
    unmarshalBinaryOption
      [0, 243, 0, 23, 0, 0, 0, 1, 7, 9,
       1, 2, 3, 4, 5, 6, 7, 8, 9, 10, 11, 12, 13, 14, 15, 16, 17] =
      .ok (.rtPrefix 1 7 9 [1, 2, 3, 4, 5, 6, 7, 8, 9, 10, 11, 12, 13, 14, 15, 16, 17]) := by
  have h := rtprefix_prefix_not_truncated
    [0, 243, 0, 23, 0, 0, 0, 1, 7, 9,
     1, 2, 3, 4, 5, 6, 7, 8, 9, 10, 11, 12, 13, 14, 15, 16, 17]
    (by decide) (by decide) (by decide) (by decide) (by decide)
  exact h.1.trans rfl

end Dhcpv6
